import Mathlib

/-!
Verification of the MAMO repository (vehicular-network AoV sensing and offloading
with a MAD3PG learner).  The Python source is embedded shallowly:

* `sensingAndQueuing.compute_queuing_times` and its helpers
  (src/Environments/utilities.py) over `ℚ`;
* the `v2iTransmission` static math (`compute_SNR`, `compute_transmission_rate`,
  `compute_successful_tansmission_probability`, `get_minimum_transmission_power`)
  over `ℝ`, with the unbounded while-loop modelled by an explicit fuel argument;
* the target-network sync of `D3PGLearner._replicated_step`
  (src/Agents/MAD3PG/learning.py) over an abstract parameter type;
* `average_gradients_across_replicas` (same file) with the cross-replica
  all-reduce as an abstract list transformer;
* the snapshot condition of `EnvironmentLoop.run`
  (src/Environments/environment_loop.py).

Modelling notes, applied uniformly:
* the Python source iterates with `for i in self._sensed_information_number:`
  where the adjacent method `compute_transmission_times` writes
  `for i in range(self._sensed_information_number)`; the loops are embedded as
  iteration over `List.range`, matching the latter (clearly intended) form;
* the source reads `self.sensing_frequencies` and `self.uploading_priorities`
  for the fields stored as `self._sensing_frequencies` and
  `self._uploading_priorities`; the embedding uses the stored fields;
* `informationList.get_mean_service_time_by_vehicle_and_type` and
  `get_second_moment_service_time_by_vehicle_and_type` are defined outside the
  given sources (the class in src/Envrionments/dataStruct.py does not declare
  them); they are modelled as lookup functions by information type, for the one
  fixed vehicle the `sensingAndQueuing` object is built for;
* Python `list.sort(key, reverse=True)` is a stable descending sort; it is
  embedded with `List.insertionSort` on the relation "has greater-or-equal
  uploading priority";
* floating point arithmetic is idealised as exact `ℚ` or `ℝ` arithmetic.
-/

/-! ## Queuing model: `sensingAndQueuing` (src/Environments/utilities.py) -/

/-- One entry of the `action_list` built inside `compute_queuing_times`: a dict
with keys `type`, `sensing_frequency`, `uploading_priority`. -/
structure sensedItem where
  type : ℤ
  sensing_frequency : ℚ
  uploading_priority : ℚ
deriving DecidableEq, Inhabited

/-- The state of a `sensingAndQueuing` object that `compute_queuing_times`
reads: the constructor arguments of the class, with the two external
service-time lookups (keyed by information type, for the fixed vehicle)
as function-valued fields. -/
structure sensingAndQueuing where
  sensed_information_number : ℕ
  sensed_information : List ℕ
  sensing_frequencies : List ℚ
  uploading_priorities : List ℚ
  information_canbe_sensed : List ℤ
  mean_service_time : ℤ → ℚ
  second_moment_service_time : ℤ → ℚ

/-- `get_sensed_information_type` (module-level helper in utilities.py):
slot `i` carries the type the vehicle can sense there if the slot is sensed,
and `-1` otherwise. -/
def get_sensed_information_type (n : ℕ) (sensed : List ℕ) (canbe : List ℤ) :
    List ℤ :=
  (List.range n).map fun i => if sensed.getD i 0 = 1 then canbe.getD i 0 else -1

/-- The `_sensed_information_type` array computed in the constructor. -/
def sensedInformationType (sq : sensingAndQueuing) : List ℤ :=
  get_sensed_information_type sq.sensed_information_number
    sq.sensed_information sq.information_canbe_sensed

/-- The type stored at slot `i` of `_sensed_information_type`. -/
def typeAt (sq : sensingAndQueuing) (i : ℕ) : ℤ :=
  (sensedInformationType sq).getD i (-1)

/-- The `action_list` built in `compute_queuing_times` before sorting: one
entry per slot with `sensed_information[i] == 1`, in slot order. -/
def actionList (sq : sensingAndQueuing) : List sensedItem :=
  (List.range sq.sensed_information_number).filterMap fun i =>
    if sq.sensed_information.getD i 0 = 1 then
      some ⟨typeAt sq i, sq.sensing_frequencies.getD i 0,
        sq.uploading_priorities.getD i 0⟩
    else none

/-- The comparison used by `action_list.sort(key=uploading_priority,
reverse=True)`: `a` may precede `b` when its priority is at least that
of `b`. -/
def priorityGE (a b : sensedItem) : Prop :=
  b.uploading_priority ≤ a.uploading_priority

instance : DecidableRel priorityGE :=
  fun a b => inferInstanceAs (Decidable (b.uploading_priority ≤ a.uploading_priority))

instance : IsTotal sensedItem priorityGE :=
  ⟨fun a b => le_total b.uploading_priority a.uploading_priority⟩

instance : IsTrans sensedItem priorityGE :=
  ⟨fun _ _ _ hab hbc => le_trans hbc hab⟩

/-- The `action_list` after the stable descending sort by uploading priority. -/
def sortedActionList (sq : sensingAndQueuing) : List sensedItem :=
  List.insertionSort priorityGE (actionList sq)

/-- The `queuing_time` computed by the loop body of `compute_queuing_times` for
the item at position `index` of the sorted list `L`: `0` at the head of the
queue; otherwise the workload and tau are accumulated over the strictly
higher-ranked items, the item adds its own contribution to both, and the
Pollaczek-Khinchine style expression of the source is evaluated. -/
def queuingTimeAtRank (sq : sensingAndQueuing) (L : List sensedItem)
    (index : ℕ) : ℚ :=
  if index = 0 then 0
  else
    let action := L.getD index default
    let mean_service_time := sq.mean_service_time action.type
    let second_moment_service_time := sq.second_moment_service_time action.type
    let workload :=
      (((L.take index).map fun b =>
        b.sensing_frequency * sq.mean_service_time b.type).sum) +
        action.sensing_frequency * mean_service_time
    let tau :=
      (((L.take index).map fun b =>
        b.sensing_frequency * sq.second_moment_service_time b.type).sum) +
        action.sensing_frequency * second_moment_service_time
    (1 / (1 - workload + action.sensing_frequency * mean_service_time)) *
      (mean_service_time + tau / (2 * (1 - workload))) - mean_service_time

/-- The write-back loop `for i in range(n): if sensed_information_type[i] ==
data_type: queuing_times[i] = queuing_time`. -/
def writeQueuingTime (sq : sensingAndQueuing) (qt : List ℚ) (t : ℤ) (v : ℚ) :
    List ℚ :=
  (List.range sq.sensed_information_number).map fun i =>
    if typeAt sq i = t then v else qt.getD i 0

/-- `sensingAndQueuing.compute_queuing_times`: sort the sensed slots by
descending uploading priority, then walk the sorted list writing each rank's
queuing time into every slot whose type matches that rank's type, starting
from an all-zero array. -/
def compute_queuing_times (sq : sensingAndQueuing) : List ℚ :=
  let L := sortedActionList sq
  L.enum.foldl
    (fun qt p => writeQueuingTime sq qt p.2.type (queuingTimeAtRank sq L p.1))
    (List.replicate sq.sensed_information_number 0)

/-- Modelled from the spec: the Pollaczek-Khinchine delay exactly as the
specification writes it, `W = (1/(1 - rho)) * (S + tau/(2*(1-rho))) - S` with
the self-inclusive workload `rho` in BOTH denominators.  Used only to compare
the spec formula with the source. -/
def specQueuingTimePK (S tau rho : ℚ) : ℚ :=
  (1 / (1 - rho)) * (S + tau / (2 * (1 - rho))) - S

/-! ## Transmission model: `v2iTransmission` statics (src/Environments/utilities.py) -/

/-- `cover_dBm_to_W`: `np.power(10, dBm / 10) / 1000`. -/
noncomputable def cover_dBm_to_W (dBm : ℝ) : ℝ :=
  (10 : ℝ) ^ (dBm / 10) / 1000

/-- `cover_mW_to_W`: `mW / 1000`. -/
noncomputable def cover_mW_to_W (mW : ℝ) : ℝ := mW / 1000

/-- `cover_MHz_to_Hz`: the source multiplies by the literal `10e6`,
which is `10^7`. -/
noncomputable def cover_MHz_to_Hz (MHz : ℝ) : ℝ := MHz * 10e6

/-- `v2iTransmission.compute_SNR`, exactly as written in the source:
`(1.0 / cover_dBm_to_W(noise)) * abs(gain)^2 * 1.0 / distance^ple *
cover_mW_to_W(power)`. -/
noncomputable def compute_SNR (white_gaussian_noise channel_fading_gain
    distance : ℝ) (path_loss_exponent : ℕ) (transmission_power : ℝ) : ℝ :=
  (1 / cover_dBm_to_W white_gaussian_noise) * |channel_fading_gain| ^ 2 *
    (1 / distance ^ path_loss_exponent) * cover_mW_to_W transmission_power

/-- Python `int(...)`: truncation toward zero. -/
noncomputable def pyInt (x : ℝ) : ℤ :=
  if 0 ≤ x then ⌊x⌋ else ⌈x⌉

/-- `v2iTransmission.compute_transmission_rate`:
`int(cover_MHz_to_Hz(bandwidth) * log2(1 + SNR) / 8)` in bytes per second. -/
noncomputable def compute_transmission_rate (SNR bandwidth : ℝ) : ℤ :=
  pyInt (cover_MHz_to_Hz bandwidth * Real.logb 2 (1 + SNR) / 8)

/-- `v2iTransmission.compute_successful_tansmission_probability` (name as in
the source): the fraction of the given channel fading gains whose SNR reaches
the target. -/
noncomputable def compute_successful_tansmission_probability
    (white_gaussian_noise : ℝ) (channel_fading_gains : List ℝ) (distance : ℝ)
    (path_loss_exponent : ℕ) (transmission_power SNR_target : ℝ) : ℝ :=
  ((channel_fading_gains.countP fun g =>
      decide (SNR_target ≤ compute_SNR white_gaussian_noise g distance
        path_loss_exponent transmission_power)) : ℝ) /
    (channel_fading_gains.length : ℝ)

/-- `v2iTransmission.get_minimum_transmission_power`: the fading gains are
drawn once before the loop and the same sample is reused at every iterate;
`while True:` re-estimates the success probability at the current power,
breaks when it is at or under the threshold, and otherwise lowers the power by
one percent (`p -= p * 0.01`).  The unbounded loop is modelled with an explicit
fuel argument: `none` means the loop has not terminated within `fuel`
iterations of the body. -/
noncomputable def get_minimum_transmission_power (white_gaussian_noise : ℝ)
    (channel_fading_gains : List ℝ) (distance : ℝ) (path_loss_exponent : ℕ)
    (SNR_target probabiliity_threshold : ℝ) :
    ℕ → ℝ → Option ℝ
  | 0, _ => none
  | fuel + 1, power =>
    if compute_successful_tansmission_probability white_gaussian_noise
        channel_fading_gains distance path_loss_exponent power SNR_target ≤
        probabiliity_threshold then
      some power
    else
      get_minimum_transmission_power white_gaussian_noise channel_fading_gains
        distance path_loss_exponent SNR_target probabiliity_threshold fuel
        (power - power * (1 / 100))

/-! ## Learner: `D3PGLearner._replicated_step` (src/Agents/MAD3PG/learning.py) -/

/-- The six per-network parameter lists of one side (online or target) of the
learner, in the order the source declares them when building
`online_variables` and `target_variables`. -/
structure LearnerNets (α : Type) where
  vehicle_observation_variables : List α
  vehicle_critic_variables : List α
  vehicle_policy_variables : List α
  edge_observation_variables : List α
  edge_critic_variables : List α
  edge_policy_variables : List α
deriving DecidableEq

/-- The flattened tuple `(*vehicle_observation, *vehicle_critic,
*vehicle_policy, *edge_observation, *edge_critic, *edge_policy)`. -/
def netVariables {α : Type} (n : LearnerNets α) : List α :=
  n.vehicle_observation_variables ++ (n.vehicle_critic_variables ++
    (n.vehicle_policy_variables ++ (n.edge_observation_variables ++
    (n.edge_critic_variables ++ n.edge_policy_variables))))

/-- The per-group lengths of the six parameter lists. -/
def netShape {α : Type} (n : LearnerNets α) : ℕ × ℕ × ℕ × ℕ × ℕ × ℕ :=
  (n.vehicle_observation_variables.length, n.vehicle_critic_variables.length,
    n.vehicle_policy_variables.length, n.edge_observation_variables.length,
    n.edge_critic_variables.length, n.edge_policy_variables.length)

/-- `for src, dest in zip(online_variables, target_variables):
dest.assign(src)`: the first `min` positions of the destination take the
source values, positions beyond the zipped prefix keep their old values. -/
def zipAssign {α : Type} (src dst : List α) : List α :=
  ((src.zip dst).map Prod.fst) ++ dst.drop src.length

/-- Reslice a flat variable list into the six groups, using the group lengths
of `template` (the variables are assigned in place, so the grouping of the
target side is unchanged by the copy). -/
def splitNets {α : Type} (template : LearnerNets α) (l : List α) :
    LearnerNets α :=
  let n1 := template.vehicle_observation_variables.length
  let n2 := template.vehicle_critic_variables.length
  let n3 := template.vehicle_policy_variables.length
  let n4 := template.edge_observation_variables.length
  let n5 := template.edge_critic_variables.length
  let n6 := template.edge_policy_variables.length
  { vehicle_observation_variables := l.take n1
    vehicle_critic_variables := (l.drop n1).take n2
    vehicle_policy_variables := ((l.drop n1).drop n2).take n3
    edge_observation_variables := (((l.drop n1).drop n2).drop n3).take n4
    edge_critic_variables := ((((l.drop n1).drop n2).drop n3).drop n4).take n5
    edge_policy_variables :=
      (((((l.drop n1).drop n2).drop n3).drop n4).drop n5).take n6 }

/-- The learner state that `_replicated_step` touches: online parameters,
target parameters and the step counter `_num_steps` (initialised to 0). -/
structure D3PGLearner (α : Type) where
  online : LearnerNets α
  target : LearnerNets α
  num_steps : ℕ
deriving DecidableEq

/-- The hard copy `dest.assign(src)` over the zipped flat variable tuples,
resliced into the target grouping. -/
def targetSyncNets {α : Type} (s : D3PGLearner α) : LearnerNets α :=
  splitNets s.target (zipAssign (netVariables s.online) (netVariables s.target))

/-- One `_replicated_step`: if `num_steps mod target_update_period == 0` the
target variables take the online values; `num_steps` is incremented; the rest
of the step (sampling and `_step`, which applies gradients to the online
parameters and reads the target parameters) is the abstract `stepFn`. -/
def replicated_step {α : Type}
    (stepFn : LearnerNets α → LearnerNets α → LearnerNets α)
    (target_update_period : ℕ) (s : D3PGLearner α) : D3PGLearner α :=
  let target :=
    if s.num_steps % target_update_period = 0 then targetSyncNets s
    else s.target
  { online := stepFn s.online target
    target := target
    num_steps := s.num_steps + 1 }

/-- The learner state after `i` calls of `_replicated_step` from `s0`. -/
def learnerTrace {α : Type}
    (stepFn : LearnerNets α → LearnerNets α → LearnerNets α)
    (target_update_period : ℕ) (s0 : D3PGLearner α) (i : ℕ) : D3PGLearner α :=
  (replicated_step stepFn target_update_period)^[i] s0

/-! ## `average_gradients_across_replicas` (src/Agents/MAD3PG/learning.py) -/

/-- `average_gradients_across_replicas`: drop the `None` entries, run the
cross-replica all-reduce on the remaining gradients, and scatter the results
back to the original indices of a `None`-filled list of the input length.
`all_reduce` abstracts `replica_context.all_reduce("mean", ...)`. -/
def average_gradients_across_replicas {γ : Type}
    (all_reduce : List γ → List γ) (gradients : List (Option γ)) :
    List (Option γ) :=
  let gradients_without_nones := gradients.filterMap id
  let original_indices := (gradients.enum.filter fun p => p.2.isSome).map Prod.fst
  let results_without_nones := all_reduce gradients_without_nones
  (original_indices.zip results_without_nones).foldl
    (fun results p => results.set p.1 (some p.2))
    (List.replicate gradients.length none)

/-! ## Environment loop snapshot (src/Environments/environment_loop.py) -/

/-- The guard of the snapshot write in `EnvironmentLoop.run`:
`if step_count % 15000 and self._label == "Evaluator_Loop": save_obj(...)`.
A nonzero Python integer is truthy, so the first conjunct holds exactly when
`step_count` is NOT a multiple of 15000. -/
def snapshotCondition (step_count : ℕ) (label : String) : Bool :=
  (step_count % 15000 != 0) && (label == "Evaluator_Loop")

/-! ## Concrete inputs used by counterexamples and witnesses -/

/-- Two sensed slots with distinct types and distinct priorities; both have
sensing frequency 1, mean service time 1/4 and second moment 1/8, so the
rank-1 item has self-inclusive workload 1/2. -/
def sqTwoItems : sensingAndQueuing :=
  { sensed_information_number := 2
    sensed_information := [1, 1]
    sensing_frequencies := [1, 1]
    uploading_priorities := [2, 1]
    information_canbe_sensed := [0, 1]
    mean_service_time := fun _ => 1/4
    second_moment_service_time := fun _ => 1/8 }

/-- Two sensed slots whose arrival rates are large enough that the rank-1
self-inclusive workload is 3, far beyond the stability bound 1. -/
def sqUnstable : sensingAndQueuing :=
  { sensed_information_number := 2
    sensed_information := [1, 1]
    sensing_frequencies := [8, 4]
    uploading_priorities := [2, 1]
    information_canbe_sensed := [0, 1]
    mean_service_time := fun _ => 1/4
    second_moment_service_time := fun _ => 1/8 }

/-- A Monte-Carlo sample of 100 channel fading gains, all zero: every SNR is
0, so a positive SNR target is never reached. -/
noncomputable def zeroGains : List ℝ := List.replicate 100 0

/-- A Monte-Carlo sample of 100 channel fading gains, all one. -/
noncomputable def oneGains : List ℝ := List.replicate 100 1

/-- Online parameters of a small concrete learner over `ℤ`. -/
def wOnline : LearnerNets ℤ := ⟨[1], [2], [3], [4], [5], [6]⟩

/-- Target parameters of a small concrete learner over `ℤ`. -/
def wTarget : LearnerNets ℤ := ⟨[0], [0], [0], [0], [0], [0]⟩

/-- A small concrete learner state with `num_steps = 0`. -/
def wState0 : D3PGLearner ℤ := ⟨wOnline, wTarget, 0⟩

/-- A concrete stand-in for the gradient-application part of `_step`: it
bumps every vehicle-observation parameter, keeping every group length. -/
def wStep : LearnerNets ℤ → LearnerNets ℤ → LearnerNets ℤ :=
  fun o _ =>
    ⟨o.vehicle_observation_variables.map (· + 1), o.vehicle_critic_variables,
      o.vehicle_policy_variables, o.edge_observation_variables,
      o.edge_critic_variables, o.edge_policy_variables⟩

/-! ## Helper lemmas -/

theorem foldl_set_shift {γ : Type} (k : ℕ) (ps : List (ℕ × γ)) (x : Option γ)
    (l : List (Option γ)) (h : ∀ p ∈ ps, k + 1 ≤ p.1) :
    ps.foldl (fun results p => results.set (p.1 - k) (some p.2)) (x :: l) =
      x :: ps.foldl (fun results p => results.set (p.1 - (k + 1)) (some p.2)) l := by
  induction ps generalizing l with
  | nil => rfl
  | cons p ps ih =>
    have hp := h p (List.mem_cons_self _ _)
    have hs : p.1 - k = (p.1 - (k + 1)) + 1 := by omega
    simp only [List.foldl_cons, hs, List.set_cons_succ]
    exact ih _ fun q hq => h q (List.mem_cons_of_mem _ hq)

theorem scatter_enumFrom {γ : Type} (m : γ → γ) :
    ∀ (gs : List (Option γ)) (k : ℕ),
      ((((List.enumFrom k gs).filter fun p => p.2.isSome).map Prod.fst).zip
          ((gs.filterMap id).map m)).foldl
        (fun results p => results.set (p.1 - k) (some p.2))
        (List.replicate gs.length none) = gs.map (Option.map m) := by
  intro gs
  induction gs with
  | nil => intro k; rfl
  | cons a gs ih =>
    intro k
    have hbound : ∀ p ∈ ((((List.enumFrom (k + 1) gs).filter
        fun p => p.2.isSome).map Prod.fst).zip ((gs.filterMap id).map m)),
        k + 1 ≤ p.1 := by
      intro p hp
      have h1 := (List.of_mem_zip hp).1
      obtain ⟨q, hq, hq'⟩ := List.mem_map.mp h1
      have := List.le_fst_of_mem_enumFrom (List.mem_of_mem_filter hq)
      omega
    cases a with
    | none =>
      have hfil : (((k, (none : Option γ)) :: List.enumFrom (k + 1) gs).filter
          fun p => p.2.isSome) =
          ((List.enumFrom (k + 1) gs).filter fun p => p.2.isSome) := by simp
      have hfm : List.filterMap id ((none : Option γ) :: gs) =
          List.filterMap id gs := by simp
      simp only [List.enumFrom_cons, List.length_cons, List.replicate_succ,
        List.map_cons]
      rw [hfil, hfm, foldl_set_shift k _ _ _ hbound, ih (k + 1)]
      rfl
    | some g =>
      have hfil : (((k, some g) :: List.enumFrom (k + 1) gs).filter
          fun p => p.2.isSome) =
          (k, some g) :: ((List.enumFrom (k + 1) gs).filter fun p => p.2.isSome) := by
        simp
      have hfm : List.filterMap id (some g :: gs) = g :: List.filterMap id gs := by
        simp
      simp only [List.enumFrom_cons, List.length_cons, List.replicate_succ,
        List.map_cons]
      rw [hfil, hfm]
      simp only [List.map_cons, List.zip_cons_cons, List.foldl_cons,
        Nat.sub_self, List.set_cons_zero]
      rw [foldl_set_shift k _ _ _ hbound, ih (k + 1)]
      rfl

/-! ## Claim theorems -/

/-- Claim C4: for every input gradient list, `average_gradients_across_replicas`
filters the undefined (`none`) entries out of the mean reduction and re-inserts
`none` at the matching positions, so that when the all-reduce acts elementwise
(each defined gradient `g` is replaced by its cross-replica mean `m g`), the
output is exactly the input list with every defined entry replaced by its mean
and every `none` kept in place; in particular the output has the input length
and defined entries stay at their original indices. -/
theorem C4_gradient_none_preserving_reduction {γ : Type} (m : γ → γ)
    (gradients : List (Option γ)) :
    average_gradients_across_replicas (List.map m) gradients =
      gradients.map (Option.map m) := by
  have h := scatter_enumFrom m gradients 0
  simp only [Nat.sub_zero] at h
  simpa [average_gradients_across_replicas, List.enum] using h

/-- Claim C5: evaluation of the snapshot guard of `EnvironmentLoop.run`.  The
guard never fires for a label other than the Evaluator loop, but on the
Evaluator loop it is FALSE at exact multiples of 15000 cumulative steps
(`15000 % 15000 == 0` is falsy) and TRUE at almost every other step count,
because the source tests the truthiness of `step_count % 15000` instead of
comparing it with zero.  This contradicts the claimed
"written exactly every 15000 cumulative steps". -/
theorem C5_snapshot_condition_eval :
    (∀ (step_count : ℕ) (label : String),
      (snapshotCondition step_count label && !(label == "Evaluator_Loop")) = false)
    ∧ snapshotCondition 15000 "Evaluator_Loop" = false
    ∧ snapshotCondition 30000 "Evaluator_Loop" = false
    ∧ snapshotCondition 1 "Evaluator_Loop" = true
    ∧ snapshotCondition 14999 "Evaluator_Loop" = true := by
  refine ⟨?_, by decide, by decide, by decide, by decide⟩
  intro step_count label
  cases h : label == "Evaluator_Loop" <;> simp [snapshotCondition, h]

/-- Claim C8: evaluation of `compute_transmission_rate`.  For SNR 0 the rate
is 0 for every bandwidth, as claimed.  But at SNR 1 and bandwidth 1 MHz the
code yields `int(10^7 * log2(2) / 8) = 1250000` bytes/s: `cover_MHz_to_Hz`
multiplies by the literal `10e6 = 10^7` instead of the 10^6 that converts MHz
to Hz, so the claimed "bandwidth in Hz" formula (which gives
`int(10^6 * 1 / 8) = 125000`) disagrees with the code by a factor of 10. -/
theorem C8_transmission_rate_eval :
    (∀ bandwidth : ℝ, compute_transmission_rate 0 bandwidth = 0)
    ∧ compute_transmission_rate 1 1 = 1250000
    ∧ (1250000 : ℤ) ≠ 125000 := by
  refine ⟨?_, ?_, by decide⟩
  · intro b
    simp [compute_transmission_rate, pyInt, Real.logb_one]
  · have h2 : ((1 : ℝ) + 1) = 2 := by norm_num
    have hlog : Real.logb 2 ((1 : ℝ) + 1) = 1 := by
      rw [h2]; exact Real.logb_self_eq_one (by norm_num)
    have hval : cover_MHz_to_Hz 1 * Real.logb 2 ((1 : ℝ) + 1) / 8 = 1250000 := by
      rw [hlog]; norm_num [cover_MHz_to_Hz]
    have hcast : ((1250000 : ℝ)) = ((1250000 : ℤ) : ℝ) := by norm_num
    rw [compute_transmission_rate, hval, pyInt, if_pos (by norm_num), hcast,
      Int.floor_intCast]

theorem cover_dBm_to_W_pos (x : ℝ) : 0 < cover_dBm_to_W x := by
  unfold cover_dBm_to_W
  positivity

/-- Claim C7: `compute_SNR` equals the claimed closed form
`(power in W) / (noise in W) * |gain|^2 / distance^ple`, and (the other
arguments held fixed, distance positive, path-loss exponent positive) it is
monotonically decreasing in the distance and monotonically increasing in the
transmission power — weakly for arbitrary gain and nonnegative power, and
strictly when the gain is nonzero and the power positive. -/
theorem C7_SNR_formula_and_monotone (noise gain d1 d2 p q1 q2 : ℝ) (e : ℕ) :
    (compute_SNR noise gain d1 e p =
      cover_mW_to_W p / cover_dBm_to_W noise * |gain| ^ 2 / d1 ^ e)
    ∧ (0 < d1 → d1 ≤ d2 → 0 ≤ p →
        compute_SNR noise gain d2 e p ≤ compute_SNR noise gain d1 e p)
    ∧ (0 < d1 → q1 ≤ q2 →
        compute_SNR noise gain d1 e q1 ≤ compute_SNR noise gain d1 e q2)
    ∧ (0 < d1 → d1 < d2 → 0 < p → gain ≠ 0 → 0 < e →
        compute_SNR noise gain d2 e p < compute_SNR noise gain d1 e p)
    ∧ (0 < d1 → q1 < q2 → gain ≠ 0 →
        compute_SNR noise gain d1 e q1 < compute_SNR noise gain d1 e q2) := by
  have hnW := cover_dBm_to_W_pos noise
  refine ⟨?_, ?_, ?_, ?_, ?_⟩
  · unfold compute_SNR cover_mW_to_W
    field_simp
    ring
  · intro hd1 hdd hp
    unfold compute_SNR cover_mW_to_W
    have h1 : (0:ℝ) ≤ 1 / cover_dBm_to_W noise * |gain| ^ 2 := by positivity
    have h2 : (1:ℝ) / d2 ^ e ≤ 1 / d1 ^ e := by
      apply one_div_le_one_div_of_le (pow_pos hd1 e)
      exact pow_le_pow_left₀ hd1.le hdd e
    have h3 : (0:ℝ) ≤ p / 1000 := by positivity
    exact mul_le_mul_of_nonneg_right (mul_le_mul_of_nonneg_left h2 h1) h3
  · intro hd1 hq
    unfold compute_SNR cover_mW_to_W
    have h1 : (0:ℝ) ≤ 1 / cover_dBm_to_W noise * |gain| ^ 2 * (1 / d1 ^ e) := by
      positivity
    have h2 : q1 / 1000 ≤ q2 / 1000 := by linarith
    exact mul_le_mul_of_nonneg_left h2 h1
  · intro hd1 hdd hp hg he
    unfold compute_SNR cover_mW_to_W
    have h1 : (0:ℝ) < 1 / cover_dBm_to_W noise * |gain| ^ 2 := by
      have : (0:ℝ) < |gain| := abs_pos.mpr hg
      positivity
    have h2 : (1:ℝ) / d2 ^ e < 1 / d1 ^ e := by
      apply one_div_lt_one_div_of_lt (pow_pos hd1 e)
      exact pow_lt_pow_left₀ hdd hd1.le (Nat.pos_iff_ne_zero.mp he)
    have h3 : (0:ℝ) < p / 1000 := by positivity
    exact mul_lt_mul_of_pos_right (mul_lt_mul_of_pos_left h2 h1) h3
  · intro hd1 hq hg
    unfold compute_SNR cover_mW_to_W
    have h1 : (0:ℝ) < 1 / cover_dBm_to_W noise * |gain| ^ 2 * (1 / d1 ^ e) := by
      have : (0:ℝ) < |gain| := abs_pos.mpr hg
      positivity
    have h2 : q1 / 1000 < q2 / 1000 := by linarith
    exact mul_lt_mul_of_pos_left h2 h1

/-- Claim C7 witness: the monotonicity bounds applied at noise -70 dBm,
gain 2, distances 1 and 2, powers 1 and 2 mW, path-loss exponent 3. -/
theorem C7_SNR_formula_and_monotone_witness :
    (0:ℝ) < 1 ∧ (1:ℝ) < 2 ∧ (0:ℝ) < 1 ∧ (2:ℝ) ≠ 0 ∧ 0 < 3 ∧
    compute_SNR (-70) 2 2 3 1 < compute_SNR (-70) 2 1 3 1 ∧
    compute_SNR (-70) 2 1 3 1 < compute_SNR (-70) 2 1 3 2 := by
  refine ⟨by norm_num, by norm_num, by norm_num, by norm_num, by norm_num, ?_, ?_⟩
  · exact (C7_SNR_formula_and_monotone (-70) 2 1 2 1 1 2 3).2.2.2.1
      (by norm_num) (by norm_num) (by norm_num) (by norm_num) (by norm_num)
  · exact (C7_SNR_formula_and_monotone (-70) 2 1 2 1 1 2 3).2.2.2.2
      (by norm_num) (by norm_num) (by norm_num)

theorem gmtp_step_eq (noise : ℝ) (gains : List ℝ) (d : ℝ) (e : ℕ)
    (tgt thr p : ℝ) (fuel : ℕ) :
    get_minimum_transmission_power noise gains d e tgt thr (fuel + 1) p =
      if compute_successful_tansmission_probability noise gains d e p tgt ≤ thr
      then some p
      else get_minimum_transmission_power noise gains d e tgt thr fuel
        (p * (99 / 100)) := by
  have h : p - p * (1 / 100) = p * (99 / 100) := by ring
  rw [get_minimum_transmission_power, h]

theorem gmtp_some (noise : ℝ) (gains : List ℝ) (d : ℝ) (e : ℕ) (tgt thr : ℝ) :
    ∀ (fuel : ℕ) (p r : ℝ),
      get_minimum_transmission_power noise gains d e tgt thr fuel p = some r →
      ∃ k : ℕ, k < fuel ∧ r = p * (99 / 100) ^ k ∧
        compute_successful_tansmission_probability noise gains d e r tgt ≤ thr ∧
        ∀ j < k, thr < compute_successful_tansmission_probability noise gains d
          e (p * (99 / 100) ^ j) tgt := by
  intro fuel
  induction fuel with
  | zero =>
    intro p r h
    simp [get_minimum_transmission_power] at h
  | succ fuel ih =>
    intro p r h
    rw [gmtp_step_eq] at h
    by_cases hc : compute_successful_tansmission_probability noise gains d e p
        tgt ≤ thr
    · rw [if_pos hc] at h
      obtain rfl : p = r := by injection h
      refine ⟨0, Nat.succ_pos _, by ring, hc, ?_⟩
      intro j hj
      omega
    · rw [if_neg hc] at h
      obtain ⟨k, hk, hr, hle, hmin⟩ := ih (p * (99 / 100)) r h
      refine ⟨k + 1, by omega, by rw [hr]; ring, hle, ?_⟩
      intro j hj
      cases j with
      | zero =>
        have : p * (99 / 100 : ℝ) ^ (0 : ℕ) = p := by ring
        rw [this]
        exact lt_of_not_le hc
      | succ j =>
        have hE : p * (99 / 100 : ℝ) ^ (j + 1) =
            p * (99 / 100) * (99 / 100) ^ j := by ring
        rw [hE]
        exact hmin j (by omega)

theorem gmtp_reaches (noise : ℝ) (gains : List ℝ) (d : ℝ) (e : ℕ)
    (tgt thr : ℝ) :
    ∀ (k : ℕ) (p : ℝ),
      compute_successful_tansmission_probability noise gains d e
        (p * (99 / 100) ^ k) tgt ≤ thr →
      ∃ fuel r,
        get_minimum_transmission_power noise gains d e tgt thr fuel p = some r := by
  intro k
  induction k with
  | zero =>
    intro p h
    have hp : p * (99 / 100 : ℝ) ^ (0 : ℕ) = p := by ring
    rw [hp] at h
    exact ⟨1, p, by rw [gmtp_step_eq, if_pos h]⟩
  | succ k ih =>
    intro p h
    by_cases hc : compute_successful_tansmission_probability noise gains d e p
        tgt ≤ thr
    · exact ⟨1, p, by rw [gmtp_step_eq, if_pos hc]⟩
    · have hE : p * (99 / 100 : ℝ) ^ (k + 1) =
          p * (99 / 100) * (99 / 100) ^ k := by ring
      rw [hE] at h
      obtain ⟨fuel, r, hr⟩ := ih (p * (99 / 100)) h
      exact ⟨fuel + 1, r, by rw [gmtp_step_eq, if_neg hc]; exact hr⟩

theorem gmtp_diverges (noise : ℝ) (gains : List ℝ) (d : ℝ) (e : ℕ)
    (tgt thr p : ℝ)
    (h : ∀ k : ℕ, thr < compute_successful_tansmission_probability noise gains
      d e (p * (99 / 100) ^ k) tgt) :
    ∀ fuel,
      get_minimum_transmission_power noise gains d e tgt thr fuel p = none := by
  have hgen : ∀ (fuel k : ℕ),
      get_minimum_transmission_power noise gains d e tgt thr fuel
        (p * (99 / 100) ^ k) = none := by
    intro fuel
    induction fuel with
    | zero => intro k; rfl
    | succ fuel ih =>
      intro k
      rw [gmtp_step_eq, if_neg (not_le.mpr (h k))]
      have hE : p * (99 / 100 : ℝ) ^ k * (99 / 100) =
          p * (99 / 100) ^ (k + 1) := by ring
      rw [hE]
      exact ih (k + 1)
  intro fuel
  have h0 := hgen fuel 0
  have hp : p * (99 / 100 : ℝ) ^ (0 : ℕ) = p := by ring
  rwa [hp] at h0

/-- Claim C6: the minimum-transmission-power search lowers the power by one
percent per iterate, re-estimates the empirical success probability (the
fraction of the fixed Monte-Carlo fading sample whose SNR reaches the target)
at each iterate, and returns the current power exactly when that probability
is at or under the threshold; it has no iteration cap, so when the probability
stays above the threshold at every iterate the loop returns within NO fuel
bound, i.e. the search does not terminate. -/
theorem C6_minimum_power_search_unbounded (noise : ℝ) (gains : List ℝ)
    (d : ℝ) (e : ℕ) (tgt thr p : ℝ) :
    (∀ (fuel : ℕ) (r : ℝ),
      get_minimum_transmission_power noise gains d e tgt thr fuel p = some r →
      compute_successful_tansmission_probability noise gains d e r tgt ≤ thr)
    ∧ ((∃ k : ℕ, compute_successful_tansmission_probability noise gains d e
          (p * (99 / 100) ^ k) tgt ≤ thr) →
        ∃ fuel r,
          get_minimum_transmission_power noise gains d e tgt thr fuel p = some r)
    ∧ ((∀ k : ℕ, thr < compute_successful_tansmission_probability noise gains
          d e (p * (99 / 100) ^ k) tgt) →
        ∀ fuel,
          get_minimum_transmission_power noise gains d e tgt thr fuel p = none) := by
  refine ⟨?_, ?_, gmtp_diverges noise gains d e tgt thr p⟩
  · intro fuel r h
    obtain ⟨k, _, _, hle, _⟩ := gmtp_some noise gains d e tgt thr fuel p r h
    exact hle
  · rintro ⟨k, hk⟩
    exact gmtp_reaches noise gains d e tgt thr k p hk

theorem probability_one_on_oneGains (power : ℝ) (hp : 0 ≤ power) :
    compute_successful_tansmission_probability (-70) oneGains 1 1 power 0 = 1 := by
  unfold compute_successful_tansmission_probability oneGains
  have hall : ∀ g ∈ List.replicate 100 (1 : ℝ),
      (fun g => decide ((0 : ℝ) ≤ compute_SNR (-70) g 1 1 power)) g = true := by
    intro g hg
    have hg1 : g = 1 := List.eq_of_mem_replicate hg
    subst hg1
    apply decide_eq_true
    have hnW := cover_dBm_to_W_pos (-70)
    unfold compute_SNR cover_mW_to_W
    have h1 : (0 : ℝ) ≤ 1 / cover_dBm_to_W (-70) := le_of_lt (by positivity)
    have h2 : (0 : ℝ) ≤ |(1 : ℝ)| ^ 2 := by positivity
    have h3 : (0 : ℝ) ≤ 1 / (1 : ℝ) ^ (1 : ℕ) := by norm_num
    have h4 : (0 : ℝ) ≤ power / 1000 := by linarith
    exact mul_nonneg (mul_nonneg (mul_nonneg h1 h2) h3) h4
  rw [List.countP_eq_length.mpr hall]
  simp

theorem probability_zero_on_zeroGains (power : ℝ) :
    compute_successful_tansmission_probability (-70) zeroGains 1 1 power 1 = 0 := by
  unfold compute_successful_tansmission_probability zeroGains
  have hall : ∀ g ∈ List.replicate 100 (0 : ℝ),
      ¬ ((fun g => decide ((1 : ℝ) ≤ compute_SNR (-70) g 1 1 power)) g = true) := by
    intro g hg
    have hg0 : g = 0 := List.eq_of_mem_replicate hg
    subst hg0
    simp only [decide_eq_true_eq]
    intro hcon
    have hz : compute_SNR (-70) 0 1 1 power = 0 := by
      unfold compute_SNR
      simp
    rw [hz] at hcon
    linarith
  rw [List.countP_eq_zero.mpr hall]
  simp

/-- Claim C6 witness: with the all-ones fading sample, a zero SNR target and
threshold 1/2, the empirical success probability is 1 at every iterate, so the
probability never drops to the threshold and the search returns `none` at
every fuel bound. -/
theorem C6_minimum_power_search_unbounded_witness :
    (∀ k : ℕ, (1 : ℝ) / 2 < compute_successful_tansmission_probability (-70)
      oneGains 1 1 ((1 : ℝ) * (99 / 100) ^ k) 0)
    ∧ ∀ fuel, get_minimum_transmission_power (-70) oneGains 1 1 0 (1 / 2)
        fuel 1 = none := by
  have hfor : ∀ k : ℕ, (1 : ℝ) / 2 <
      compute_successful_tansmission_probability (-70) oneGains 1 1
        ((1 : ℝ) * (99 / 100) ^ k) 0 := by
    intro k
    rw [probability_one_on_oneGains _ (by positivity)]
    norm_num
  exact ⟨hfor,
    (C6_minimum_power_search_unbounded (-70) oneGains 1 1 0 (1 / 2) 1).2.2 hfor⟩

/-- Claim C10: whenever the search terminates it returns the input power
times `0.99^k`, where `k` is the number of reduction iterations performed and
is minimal (every earlier iterate had probability above the threshold); the
returned power never exceeds a nonnegative input power; and it equals the
input power exactly when the very first probability estimate is already at or
under the threshold.  The probability at each iterate is computed from the
single fixed fading sample drawn before the loop. -/
theorem C10_returned_power_characterisation (noise : ℝ) (gains : List ℝ)
    (d : ℝ) (e : ℕ) (tgt thr : ℝ) (fuel : ℕ) (p r : ℝ)
    (h : get_minimum_transmission_power noise gains d e tgt thr fuel p = some r) :
    (∃ k : ℕ, k < fuel ∧ r = p * (99 / 100) ^ k ∧
      compute_successful_tansmission_probability noise gains d e r tgt ≤ thr ∧
      ∀ j < k, thr < compute_successful_tansmission_probability noise gains d
        e (p * (99 / 100) ^ j) tgt)
    ∧ (0 ≤ p → r ≤ p)
    ∧ (r = p ↔
        compute_successful_tansmission_probability noise gains d e p tgt ≤ thr) := by
  obtain ⟨k, hk, hr, hle, hmin⟩ := gmtp_some noise gains d e tgt thr fuel p r h
  refine ⟨⟨k, hk, hr, hle, hmin⟩, ?_, ?_, ?_⟩
  · intro hp
    rw [hr]
    calc p * (99 / 100 : ℝ) ^ k ≤ p * 1 :=
          mul_le_mul_of_nonneg_left
            (pow_le_one₀ (by norm_num) (by norm_num)) hp
      _ = p := mul_one p
  · intro hrp
    rw [← hrp]
    exact hle
  · intro hP
    cases fuel with
    | zero => simp [get_minimum_transmission_power] at h
    | succ fuel =>
      rw [gmtp_step_eq, if_pos hP] at h
      injection h with h
      exact h.symm

/-- Claim C10 witness: with the all-zero fading sample and SNR target 1 the
success probability is 0, so the loop returns the input power 1 unchanged
after zero reductions, and the characterisation applies to that run. -/
theorem C10_returned_power_characterisation_witness :
    (get_minimum_transmission_power (-70) zeroGains 1 1 1 (1 / 2) 1 1 = some 1)
    ∧ ((∃ k : ℕ, k < 1 ∧ (1 : ℝ) = 1 * (99 / 100) ^ k ∧
        compute_successful_tansmission_probability (-70) zeroGains 1 1 1 1 ≤ 1 / 2 ∧
        ∀ j < k, (1 : ℝ) / 2 < compute_successful_tansmission_probability (-70)
          zeroGains 1 1 ((1 : ℝ) * (99 / 100) ^ j) 1)
      ∧ ((0 : ℝ) ≤ 1 → (1 : ℝ) ≤ 1)
      ∧ ((1 : ℝ) = 1 ↔
          compute_successful_tansmission_probability (-70) zeroGains 1 1 1 1 ≤ 1 / 2)) := by
  have h : get_minimum_transmission_power (-70) zeroGains 1 1 1 (1 / 2) 1 1 =
      some 1 := by
    rw [gmtp_step_eq, if_pos]
    rw [probability_zero_on_zeroGains]
    norm_num
  exact ⟨h, C10_returned_power_characterisation (-70) zeroGains 1 1 1 (1 / 2) 1 1 1 h⟩

theorem targetSyncNets_eq {α : Type} (s : D3PGLearner α)
    (h : netShape s.online = netShape s.target) : targetSyncNets s = s.online := by
  rcases s with ⟨⟨o1, o2, o3, o4, o5, o6⟩, ⟨t1, t2, t3, t4, t5, t6⟩, n⟩
  simp only [netShape, Prod.mk.injEq] at h
  obtain ⟨h1, h2, h3, h4, h5, h6⟩ := h
  have hlen : (o1 ++ (o2 ++ (o3 ++ (o4 ++ (o5 ++ o6))))).length =
      (t1 ++ (t2 ++ (t3 ++ (t4 ++ (t5 ++ t6))))).length := by
    simp [h1, h2, h3, h4, h5, h6]
  have hzip : zipAssign (o1 ++ (o2 ++ (o3 ++ (o4 ++ (o5 ++ o6)))))
      (t1 ++ (t2 ++ (t3 ++ (t4 ++ (t5 ++ t6))))) =
      o1 ++ (o2 ++ (o3 ++ (o4 ++ (o5 ++ o6)))) := by
    unfold zipAssign
    rw [List.map_fst_zip _ _ (le_of_eq hlen),
      List.drop_eq_nil_of_le (le_of_eq hlen.symm), List.append_nil]
  show splitNets ⟨t1, t2, t3, t4, t5, t6⟩
      (zipAssign (netVariables ⟨o1, o2, o3, o4, o5, o6⟩)
        (netVariables ⟨t1, t2, t3, t4, t5, t6⟩)) = ⟨o1, o2, o3, o4, o5, o6⟩
  unfold netVariables
  simp only
  rw [hzip]
  unfold splitNets
  simp only [LearnerNets.mk.injEq]
  refine ⟨List.take_left' h1, ?_, ?_, ?_, ?_, ?_⟩
  · rw [List.drop_left' h1]
    exact List.take_left' h2
  · rw [List.drop_left' h1, List.drop_left' h2]
    exact List.take_left' h3
  · rw [List.drop_left' h1, List.drop_left' h2, List.drop_left' h3]
    exact List.take_left' h4
  · rw [List.drop_left' h1, List.drop_left' h2, List.drop_left' h3,
      List.drop_left' h4]
    exact List.take_left' h5
  · rw [List.drop_left' h1, List.drop_left' h2, List.drop_left' h3,
      List.drop_left' h4, List.drop_left' h5, ← h6]
    exact List.take_length o6

theorem replicated_step_online_eq {α : Type}
    (stepFn : LearnerNets α → LearnerNets α → LearnerNets α) (T : ℕ)
    (s : D3PGLearner α) :
    (replicated_step stepFn T s).online =
      stepFn s.online (replicated_step stepFn T s).target := rfl

theorem replicated_step_target_sync {α : Type}
    (stepFn : LearnerNets α → LearnerNets α → LearnerNets α) (T : ℕ)
    (s : D3PGLearner α) (hmod : s.num_steps % T = 0)
    (h : netShape s.online = netShape s.target) :
    (replicated_step stepFn T s).target = s.online := by
  show (if s.num_steps % T = 0 then targetSyncNets s else s.target) = s.online
  rw [if_pos hmod]
  exact targetSyncNets_eq s h

theorem replicated_step_target_skip {α : Type}
    (stepFn : LearnerNets α → LearnerNets α → LearnerNets α) (T : ℕ)
    (s : D3PGLearner α) (hmod : s.num_steps % T ≠ 0) :
    (replicated_step stepFn T s).target = s.target := by
  show (if s.num_steps % T = 0 then targetSyncNets s else s.target) = s.target
  rw [if_neg hmod]

theorem learnerTrace_succ {α : Type}
    (stepFn : LearnerNets α → LearnerNets α → LearnerNets α) (T : ℕ)
    (s0 : D3PGLearner α) (i : ℕ) :
    learnerTrace stepFn T s0 (i + 1) =
      replicated_step stepFn T (learnerTrace stepFn T s0 i) :=
  Function.iterate_succ_apply' _ _ _

theorem learnerTrace_num_steps {α : Type}
    (stepFn : LearnerNets α → LearnerNets α → LearnerNets α) (T : ℕ)
    (s0 : D3PGLearner α) (h0 : s0.num_steps = 0) :
    ∀ i, (learnerTrace stepFn T s0 i).num_steps = i := by
  intro i
  induction i with
  | zero => exact h0
  | succ i ih =>
    rw [learnerTrace_succ]
    show (learnerTrace stepFn T s0 i).num_steps + 1 = i + 1
    rw [ih]

theorem learnerTrace_shape {α : Type}
    (stepFn : LearnerNets α → LearnerNets α → LearnerNets α) (T : ℕ)
    (s0 : D3PGLearner α)
    (hstep : ∀ o t, netShape (stepFn o t) = netShape o)
    (h0 : netShape s0.online = netShape s0.target) :
    ∀ i, netShape (learnerTrace stepFn T s0 i).online =
      netShape (learnerTrace stepFn T s0 i).target := by
  intro i
  induction i with
  | zero => exact h0
  | succ i ih =>
    rw [learnerTrace_succ]
    have honline :
        netShape (replicated_step stepFn T (learnerTrace stepFn T s0 i)).online =
          netShape (learnerTrace stepFn T s0 i).online := by
      rw [replicated_step_online_eq]
      exact hstep _ _
    by_cases hmod : (learnerTrace stepFn T s0 i).num_steps % T = 0
    · rw [honline, replicated_step_target_sync stepFn T _ hmod ih]
    · rw [honline, replicated_step_target_skip stepFn T _ hmod]
      exact ih

/-- Claim C3: along any run of `_replicated_step` from a fresh learner state
(counter 0, groupwise matching online/target shapes, a step function that
only reshapes nothing), the step counter after `i` steps is `i`; the step
taken at counter value `i` hard-copies every online parameter tensor onto its
target counterpart — the whole six-group tuple, in the declared
vehicle/edge x observation/critic/policy order — exactly when
`i mod target_update_period = 0`, and leaves the target parameters untouched
on every other step. -/
theorem C3_target_sync_period {α : Type}
    (stepFn : LearnerNets α → LearnerNets α → LearnerNets α)
    (target_update_period : ℕ) (s0 : D3PGLearner α) (i : ℕ)
    (h0 : s0.num_steps = 0)
    (hshape : netShape s0.online = netShape s0.target)
    (hstep : ∀ o t, netShape (stepFn o t) = netShape o) :
    (learnerTrace stepFn target_update_period s0 i).num_steps = i
    ∧ (i % target_update_period = 0 →
        (learnerTrace stepFn target_update_period s0 (i + 1)).target =
          (learnerTrace stepFn target_update_period s0 i).online)
    ∧ (i % target_update_period ≠ 0 →
        (learnerTrace stepFn target_update_period s0 (i + 1)).target =
          (learnerTrace stepFn target_update_period s0 i).target) := by
  have hns := learnerTrace_num_steps stepFn target_update_period s0 h0
  have hsh := learnerTrace_shape stepFn target_update_period s0 hstep hshape
  refine ⟨hns i, ?_, ?_⟩
  · intro hmod
    rw [learnerTrace_succ]
    exact replicated_step_target_sync stepFn target_update_period _
      (by rw [hns i]; exact hmod) (hsh i)
  · intro hmod
    rw [learnerTrace_succ]
    exact replicated_step_target_skip stepFn target_update_period _
      (by rw [hns i]; exact hmod)

/-- Claim C3 witness: the sync law applied to a concrete integer-valued
learner with `target_update_period = 5`: step 5 copies, step 7 leaves the
target untouched. -/
theorem C3_target_sync_period_witness :
    wState0.num_steps = 0
    ∧ netShape wState0.online = netShape wState0.target
    ∧ (5 : ℕ) % 5 = 0 ∧ (7 : ℕ) % 5 ≠ 0
    ∧ (learnerTrace wStep 5 wState0 6).target =
        (learnerTrace wStep 5 wState0 5).online
    ∧ (learnerTrace wStep 5 wState0 8).target =
        (learnerTrace wStep 5 wState0 7).target := by
  have hstep : ∀ o t : LearnerNets ℤ, netShape (wStep o t) = netShape o := by
    intro o t
    simp [wStep, netShape]
  refine ⟨rfl, rfl, by decide, by decide, ?_, ?_⟩
  · exact (C3_target_sync_period wStep 5 wState0 5 rfl rfl hstep).2.1 (by decide)
  · exact (C3_target_sync_period wStep 5 wState0 7 rfl rfl hstep).2.2 (by decide)

theorem getD_writeQueuingTime (sq : sensingAndQueuing) (qt : List ℚ) (t : ℤ)
    (v : ℚ) (i : ℕ) (hi : i < sq.sensed_information_number) :
    (writeQueuingTime sq qt t v).getD i 0 =
      if typeAt sq i = t then v else qt.getD i 0 := by
  unfold writeQueuingTime
  simp [List.getD_eq_getElem?_getD, List.getElem?_map, List.getElem?_range, hi]

theorem foldl_write_untouched (sq : sensingAndQueuing) (L : List sensedItem)
    (E : List (ℕ × sensedItem)) (qt : List ℚ) (i : ℕ)
    (hi : i < sq.sensed_information_number)
    (h : ∀ e ∈ E, typeAt sq i ≠ e.2.type) :
    (E.foldl (fun qt p =>
      writeQueuingTime sq qt p.2.type (queuingTimeAtRank sq L p.1)) qt).getD i 0 =
      qt.getD i 0 := by
  induction E generalizing qt with
  | nil => rfl
  | cons e E ih =>
    rw [List.foldl_cons, ih _ fun e' he' => h e' (List.mem_cons_of_mem _ he'),
      getD_writeQueuingTime sq qt _ _ i hi,
      if_neg (h e (List.mem_cons_self _ _))]

theorem compute_queuing_times_getD (sq : sensingAndQueuing) (k i : ℕ)
    (hkL : k < (sortedActionList sq).length)
    (hi : i < sq.sensed_information_number)
    (hty : typeAt sq i = ((sortedActionList sq).getD k default).type)
    (hafter : ∀ j, k < j → j < (sortedActionList sq).length →
      typeAt sq i ≠ ((sortedActionList sq).getD j default).type) :
    (compute_queuing_times sq).getD i 0 =
      queuingTimeAtRank sq (sortedActionList sq) k := by
  have hunfold : compute_queuing_times sq =
      (sortedActionList sq).enum.foldl
        (fun qt p => writeQueuingTime sq qt p.2.type
          (queuingTimeAtRank sq (sortedActionList sq) p.1))
        (List.replicate sq.sensed_information_number 0) := rfl
  rw [hunfold]
  have hkE : k < (sortedActionList sq).enum.length := by
    simpa using hkL
  have hsplit : (sortedActionList sq).enum =
      (sortedActionList sq).enum.take k ++
        (sortedActionList sq).enum.get ⟨k, hkE⟩ ::
          (sortedActionList sq).enum.drop (k + 1) := by
    conv_lhs => rw [← List.take_append_drop k (sortedActionList sq).enum]
    rw [List.drop_eq_getElem_cons hkE]
    rfl
  rw [hsplit, List.foldl_append, List.foldl_cons]
  have hdrop : ∀ e ∈ (sortedActionList sq).enum.drop (k + 1),
      typeAt sq i ≠ e.2.type := by
    intro e he
    obtain ⟨j, hj, hje⟩ := List.getElem_of_mem he
    have hlen : k + 1 + j < (sortedActionList sq).enum.length := by
      have := hj
      simp only [List.length_drop] at this
      omega
    have hlen' : k + 1 + j < (sortedActionList sq).length := by
      simpa using hlen
    have : (sortedActionList sq).enum[k + 1 + j] = e := by
      rw [← hje, List.getElem_drop]
    rw [List.getElem_enum] at this
    have h2 : e.2 = (sortedActionList sq)[k + 1 + j] := by
      rw [← this]
    rw [h2, ← List.getD_eq_getElem _ default hlen']
    exact hafter (k + 1 + j) (by omega) hlen'
  rw [foldl_write_untouched sq _ _ _ i hi hdrop]
  have helem : (sortedActionList sq).enum.get ⟨k, hkE⟩ =
      (k, (sortedActionList sq).getD k default) := by
    simp [List.getElem_enum, List.getD_eq_getElem?_getD,
      List.getElem?_eq_getElem hkL]
  rw [helem]
  rw [getD_writeQueuingTime sq _ _ _ i hi, if_pos hty]

theorem queuingTimeAtRank_pos (sq : sensingAndQueuing) (L : List sensedItem)
    (index : ℕ) (h : index ≠ 0) :
    queuingTimeAtRank sq L index =
      (1 / (1 - ((((L.take index).map fun b =>
            b.sensing_frequency * sq.mean_service_time b.type).sum) +
          (L.getD index default).sensing_frequency *
            sq.mean_service_time (L.getD index default).type) +
          (L.getD index default).sensing_frequency *
            sq.mean_service_time (L.getD index default).type)) *
        (sq.mean_service_time (L.getD index default).type +
          ((((L.take index).map fun b =>
              b.sensing_frequency * sq.second_moment_service_time b.type).sum) +
            (L.getD index default).sensing_frequency *
              sq.second_moment_service_time (L.getD index default).type) /
            (2 * (1 - ((((L.take index).map fun b =>
                b.sensing_frequency * sq.mean_service_time b.type).sum) +
              (L.getD index default).sensing_frequency *
                sq.mean_service_time (L.getD index default).type)))) -
        sq.mean_service_time (L.getD index default).type := by
  unfold queuingTimeAtRank
  rw [if_neg h]

theorem map_take_sum_eq (f : sensedItem → ℚ) (L : List sensedItem) :
    ∀ m : ℕ, m ≤ L.length →
      ((L.take m).map f).sum = ∑ j in Finset.range m, f (L.getD j default) := by
  intro m
  induction m with
  | zero => intro _; simp
  | succ m ih =>
    intro h
    have hm : m < L.length := by omega
    rw [List.take_succ, List.map_append, List.sum_append,
      Finset.sum_range_succ, ih (by omega)]
    simp [List.getD_eq_getElem?_getD, List.getElem?_eq_getElem hm]

theorem sorted_pairwise_ne (sq : sensingAndQueuing)
    (hdist : (actionList sq).Pairwise fun a b => a.type ≠ b.type) :
    (sortedActionList sq).Pairwise fun a b => a.type ≠ b.type := by
  have hperm : List.Perm (sortedActionList sq) (actionList sq) :=
    List.perm_insertionSort priorityGE (actionList sq)
  exact (hperm.pairwise_iff fun h => h.symm).mpr hdist

theorem sortedActionList_sqTwoItems :
    sortedActionList sqTwoItems = [⟨0, 1, 2⟩, ⟨1, 1, 1⟩] := by decide

theorem sortedActionList_sqUnstable :
    sortedActionList sqUnstable = [⟨0, 8, 2⟩, ⟨1, 4, 1⟩] := by decide

/-- Claim C1 counterexample: on `sqTwoItems` the rank-1 item has
self-inclusive workload `rho = 1/2`, tau `= 1/4` and mean service time
`S = 1/4`.  The code produces 5/12, because its first denominator is the
self-EXCLUSIVE workload `1 - rho + lambda*S = 3/4`; the claimed formula with
the self-inclusive workload in both denominators gives 3/4.  The claim as
stated is therefore false on the code. -/
theorem C1_counterexample_first_denominator :
    (compute_queuing_times sqTwoItems).getD 1 0 = 5 / 12
    ∧ specQueuingTimePK (sqTwoItems.mean_service_time 1)
        ((((sortedActionList sqTwoItems).take 2).map fun b =>
          b.sensing_frequency * sqTwoItems.second_moment_service_time b.type).sum)
        ((((sortedActionList sqTwoItems).take 2).map fun b =>
          b.sensing_frequency * sqTwoItems.mean_service_time b.type).sum) = 3 / 4
    ∧ (5 / 12 : ℚ) ≠ 3 / 4 := by
  refine ⟨?_, ?_, by norm_num⟩
  · have hlen : (1 : ℕ) < (sortedActionList sqTwoItems).length := by
      rw [sortedActionList_sqTwoItems]; decide
    have hafter : ∀ j, 1 < j → j < (sortedActionList sqTwoItems).length →
        typeAt sqTwoItems 1 ≠ ((sortedActionList sqTwoItems).getD j default).type := by
      intro j hj hjl
      exfalso
      rw [sortedActionList_sqTwoItems] at hjl
      simp at hjl
      omega
    rw [compute_queuing_times_getD sqTwoItems 1 1 hlen (by decide) (by decide)
      hafter, queuingTimeAtRank_pos _ _ 1 one_ne_zero,
      sortedActionList_sqTwoItems]
    norm_num [sqTwoItems]
  · rw [sortedActionList_sqTwoItems]
    unfold specQueuingTimePK
    norm_num [sqTwoItems]

/-- Claim C1 (amended): for every sorted sequence of sensed items with
pairwise-distinct information types and every rank `k > 0`,
`compute_queuing_times` assigns the item at rank `k` the delay
`W_k = (1/(1 - rho_k + lambda_k*S_k)) * (S_k + tau_k/(2*(1 - rho_k))) - S_k`,
where the cumulative workload `rho_k` and second-moment term `tau_k` are
self-inclusive sums over ranks `0..k`: the SECOND denominator uses the
self-inclusive workload as the spec says, but the FIRST denominator uses the
self-EXCLUSIVE workload `1 - rho_k + lambda_k*S_k` (the source adds the
item's own contribution back). -/
theorem C1_amended_queuing_time_formula (sq : sensingAndQueuing) (k i : ℕ)
    (hdist : (actionList sq).Pairwise fun a b => a.type ≠ b.type)
    (hk : 0 < k) (hkL : k < (sortedActionList sq).length)
    (hi : i < sq.sensed_information_number)
    (hty : typeAt sq i = ((sortedActionList sq).getD k default).type) :
    (compute_queuing_times sq).getD i 0 =
      (let L := sortedActionList sq
       let a := L.getD k default
       let S := sq.mean_service_time a.type
       let rho := ∑ j in Finset.range (k + 1),
         (L.getD j default).sensing_frequency *
           sq.mean_service_time (L.getD j default).type
       let tau := ∑ j in Finset.range (k + 1),
         (L.getD j default).sensing_frequency *
           sq.second_moment_service_time (L.getD j default).type
       (1 / (1 - rho + a.sensing_frequency * S)) *
         (S + tau / (2 * (1 - rho))) - S) := by
  have hpw := sorted_pairwise_ne sq hdist
  have hafter : ∀ j, k < j → j < (sortedActionList sq).length →
      typeAt sq i ≠ ((sortedActionList sq).getD j default).type := by
    intro j hkj hj
    rw [hty, List.getD_eq_getElem _ default hkL, List.getD_eq_getElem _ default hj]
    exact List.pairwise_iff_getElem.mp hpw k j hkL hj hkj
  rw [compute_queuing_times_getD sq k i hkL hi hty hafter,
    queuingTimeAtRank_pos _ _ k (Nat.pos_iff_ne_zero.mp hk),
    map_take_sum_eq _ _ k (le_of_lt hkL), map_take_sum_eq _ _ k (le_of_lt hkL)]
  simp only [Finset.sum_range_succ]

/-- Claim C1 witness: the amended formula applied to `sqTwoItems` at rank 1,
slot 1, where it evaluates to 5/12. -/
theorem C1_amended_queuing_time_formula_witness :
    ((actionList sqTwoItems).Pairwise fun a b => a.type ≠ b.type)
    ∧ (0 : ℕ) < 1
    ∧ 1 < (sortedActionList sqTwoItems).length
    ∧ (1 : ℕ) < sqTwoItems.sensed_information_number
    ∧ typeAt sqTwoItems 1 = ((sortedActionList sqTwoItems).getD 1 default).type
    ∧ (compute_queuing_times sqTwoItems).getD 1 0 = 5 / 12 := by
  have hlen : 1 < (sortedActionList sqTwoItems).length := by
    rw [sortedActionList_sqTwoItems]; decide
  refine ⟨by decide, by decide, hlen, by decide, by decide, ?_⟩
  refine (C1_amended_queuing_time_formula sqTwoItems 1 1 (by decide) (by decide)
    hlen (by decide) (by decide)).trans ?_
  rw [sortedActionList_sqTwoItems]
  norm_num [Finset.sum_range_succ, sqTwoItems]

/-- Claim C2: with arrival rates making the self-inclusive workload of the
rank-1 item equal to 3 (far above the stability bound 1),
`compute_queuing_times` raises no error: it silently evaluates the
Pollaczek-Khinchine expression and returns the meaningless negative queuing
time -1/8 for that item.  The source has no check of `workload >= 1`. -/
theorem C2_unstable_queue_silently_computed :
    ((((sortedActionList sqUnstable).take 2).map fun b =>
        b.sensing_frequency * sqUnstable.mean_service_time b.type).sum) = 3
    ∧ (1 : ℚ) < 3
    ∧ (compute_queuing_times sqUnstable).getD 1 0 = -(1 / 8)
    ∧ (-(1 / 8) : ℚ) < 0 := by
  refine ⟨?_, by norm_num, ?_, by norm_num⟩
  · rw [sortedActionList_sqUnstable]
    norm_num [sqUnstable]
  · have hlen : (1 : ℕ) < (sortedActionList sqUnstable).length := by
      rw [sortedActionList_sqUnstable]; decide
    have hafter : ∀ j, 1 < j → j < (sortedActionList sqUnstable).length →
        typeAt sqUnstable 1 ≠ ((sortedActionList sqUnstable).getD j default).type := by
      intro j hj hjl
      exfalso
      rw [sortedActionList_sqUnstable] at hjl
      simp at hjl
      omega
    rw [compute_queuing_times_getD sqUnstable 1 1 hlen (by decide) (by decide)
      hafter, queuingTimeAtRank_pos _ _ 1 one_ne_zero,
      sortedActionList_sqUnstable]
    norm_num [sqUnstable]

/-- Claim C9: for every vehicle action with at least one sensed slot (with
pairwise-distinct sensed information types), `compute_queuing_times` sorts the
sensed slots descending by uploading priority, the head of the sorted list
has the highest uploading priority among all sensed items, and the output
assigns the head-of-line item a queuing time of exactly 0. -/
theorem C9_head_of_line_zero (sq : sensingAndQueuing)
    (hne : actionList sq ≠ [])
    (hdist : (actionList sq).Pairwise fun a b => a.type ≠ b.type) :
    List.Sorted priorityGE (sortedActionList sq)
    ∧ (∀ a ∈ actionList sq, a.uploading_priority ≤
        ((sortedActionList sq).headD default).uploading_priority)
    ∧ ∀ i, i < sq.sensed_information_number →
        typeAt sq i = ((sortedActionList sq).headD default).type →
        (compute_queuing_times sq).getD i 0 = 0 := by
  have hperm := List.perm_insertionSort priorityGE (actionList sq)
  have hLne : sortedActionList sq ≠ [] := by
    intro hcon
    have hlen := hperm.length_eq
    unfold sortedActionList at hcon
    rw [hcon] at hlen
    exact hne (List.eq_nil_of_length_eq_zero hlen.symm)
  obtain ⟨hd, tl, hL⟩ : ∃ hd tl, sortedActionList sq = hd :: tl := by
    cases h : sortedActionList sq with
    | nil => exact absurd h hLne
    | cons hd tl => exact ⟨hd, tl, rfl⟩
  have hsorted : List.Sorted priorityGE (sortedActionList sq) :=
    List.sorted_insertionSort priorityGE (actionList sq)
  have h0L : 0 < (sortedActionList sq).length := by rw [hL]; simp
  have hhead : (sortedActionList sq).headD default =
      (sortedActionList sq).getD 0 default := by rw [hL]; rfl
  refine ⟨hsorted, ?_, ?_⟩
  · intro a ha
    have haL : a ∈ sortedActionList sq := hperm.mem_iff.mpr ha
    rw [hL] at haL hsorted ⊢
    simp only [List.headD_cons]
    rcases List.mem_cons.mp haL with rfl | hmem
    · exact le_refl _
    · exact (List.sorted_cons.mp hsorted).1 a hmem
  · intro i hi hty
    rw [hhead] at hty
    have hpw := sorted_pairwise_ne sq hdist
    have hafter : ∀ j, 0 < j → j < (sortedActionList sq).length →
        typeAt sq i ≠ ((sortedActionList sq).getD j default).type := by
      intro j hj hjl
      rw [hty, List.getD_eq_getElem _ default h0L,
        List.getD_eq_getElem _ default hjl]
      exact List.pairwise_iff_getElem.mp hpw 0 j h0L hjl hj
    rw [compute_queuing_times_getD sq 0 i h0L hi hty hafter]
    rfl

/-- Claim C9 witness: on `sqTwoItems` the sorted list is
`[(type 0, prio 2), (type 1, prio 1)]`, and slot 0 (the head-of-line item of
type 0) receives queuing time 0. -/
theorem C9_head_of_line_zero_witness :
    actionList sqTwoItems ≠ []
    ∧ ((actionList sqTwoItems).Pairwise fun a b => a.type ≠ b.type)
    ∧ (0 : ℕ) < sqTwoItems.sensed_information_number
    ∧ typeAt sqTwoItems 0 = ((sortedActionList sqTwoItems).headD default).type
    ∧ (compute_queuing_times sqTwoItems).getD 0 0 = 0 := by
  refine ⟨by decide, by decide, by decide, by decide, ?_⟩
  exact (C9_head_of_line_zero sqTwoItems (by decide) (by decide)).2.2 0
    (by decide) (by decide)
